import Mathlib

/-!
Verification of the NFL-Updaters pipeline core.

This file gives a shallow embedding of the pure pipeline core of the
repository's three updater scripts:
  * `src/index.js`               — play-by-play updater (primary revision),
  * `src/unnamed/part_000`       — play-by-play updater (second revision),
  * `src/unnamed/part_001`       — odds alternate-lines updater,
and proves the spec's testable properties about it.

Conventions of the embedding:
  * JS `null` / `undefined` raw values are both modelled as `none : Option String`;
    the parser writes `row[header] = values[index] || null`, so an empty string
    field is also stored as `none` (the two are indistinguishable to every
    consumer in the source, which only uses truthiness tests and the `safe*`
    guards that treat `null` and `undefined` identically).
  * JS numbers are modelled as `ℚ` (`parseFloat` results) and `ℤ`
    (`parseInt` results and epoch-millisecond timestamps); the claims proved
    here depend only on parse success/failure and on order comparisons,
    never on IEEE-754 rounding.
  * An invalid JS `Date` compares false under `>=`/`<` (NaN comparison), so a
    date parse is modelled as `Option Int` and the filters return `false`
    when the parse is `none`.
-/

/-- Characters matched by the JavaScript regex class `\s` (ECMA-262 WhiteSpace
and LineTerminator), identified by code point. -/
def jsWhitespace (c : Char) : Bool :=
  let n := c.toNat
  n == 9 || n == 10 || n == 11 || n == 12 || n == 13 || n == 32 ||
  n == 160 || n == 5760 || (8192 ≤ n && n ≤ 8202) || n == 8232 ||
  n == 8233 || n == 8239 || n == 8287 || n == 12288 || n == 65279

/-- Decimal digit test, by code point. -/
def isDigitCh (c : Char) : Bool :=
  48 ≤ c.toNat && c.toNat ≤ 57

/-- Numeric value of a decimal digit character. -/
def digitVal (c : Char) : Nat := c.toNat - 48

/-- Value of a list of decimal digit characters, most significant first. -/
def digitsToNat (l : List Char) : Nat :=
  l.foldl (fun a c => a * 10 + digitVal c) 0

/-- Hexadecimal digit test, by code point. -/
def isHexDigitCh (c : Char) : Bool :=
  (48 ≤ c.toNat && c.toNat ≤ 57) || (97 ≤ c.toNat && c.toNat ≤ 102) ||
  (65 ≤ c.toNat && c.toNat ≤ 70)

/-- Numeric value of a hexadecimal digit character. -/
def hexVal (c : Char) : Nat :=
  if 48 ≤ c.toNat && c.toNat ≤ 57 then c.toNat - 48
  else if 97 ≤ c.toNat && c.toNat ≤ 102 then c.toNat - 87
  else c.toNat - 55

/-- Value of a list of hexadecimal digit characters, most significant first. -/
def hexToNat (l : List Char) : Nat :=
  l.foldl (fun a c => a * 16 + hexVal c) 0

/-- JavaScript `String.prototype.trim()`: strip leading and trailing `\s`
characters. -/
def jsTrim (s : String) : String :=
  String.mk (((s.data.dropWhile jsWhitespace).reverse.dropWhile jsWhitespace).reverse)

/-- JavaScript `parseInt(value)` with no radix argument, as used by
`safeInteger` in `src/index.js`: skip leading whitespace, read an optional
sign, detect a `0x`/`0X` hexadecimal prefix, then take the longest prefix of
digits in the detected radix; `NaN` (here `none`) when no digit follows. -/
def jsParseInt (s : String) : Option Int :=
  let l := s.data.dropWhile jsWhitespace
  let sgn : Int × List Char :=
    match l with
    | '-' :: r => (-1, r)
    | '+' :: r => (1, r)
    | _ => (1, l)
  match sgn.2 with
  | '0' :: 'x' :: r =>
    let d := r.takeWhile isHexDigitCh
    if d.isEmpty then none else some (sgn.1 * (hexToNat d : Int))
  | '0' :: 'X' :: r =>
    let d := r.takeWhile isHexDigitCh
    if d.isEmpty then none else some (sgn.1 * (hexToNat d : Int))
  | l2 =>
    let d := l2.takeWhile isDigitCh
    if d.isEmpty then none else some (sgn.1 * (digitsToNat d : Int))

/-- JavaScript `parseFloat(value)` as used by `safeNumeric`/`safeDouble` in
`src/index.js`: skip leading whitespace, read an optional sign, an integer
part, an optional fraction, and an optional exponent; trailing garbage is
ignored; `NaN` (here `none`) when neither integer nor fraction digits are
present.  The value is represented exactly in `ℚ`. -/
def jsParseFloat (s : String) : Option ℚ :=
  let l := s.data.dropWhile jsWhitespace
  let sgn : ℚ × List Char :=
    match l with
    | '-' :: r => (-1, r)
    | '+' :: r => (1, r)
    | _ => (1, l)
  let ip := sgn.2.takeWhile isDigitCh
  let l2 := sgn.2.dropWhile isDigitCh
  let fr : List Char × List Char :=
    match l2 with
    | '.' :: r => (r.takeWhile isDigitCh, r.dropWhile isDigitCh)
    | _ => ([], l2)
  if ip.isEmpty && fr.1.isEmpty then none
  else
    let mant : ℚ := (digitsToNat ip : ℚ) + (digitsToNat fr.1 : ℚ) / ((10 : ℚ) ^ fr.1.length)
    let ex : Int :=
      match fr.2 with
      | 'e' :: r =>
        let esgn : Int × List Char :=
          match r with
          | '-' :: t => (-1, t)
          | '+' :: t => (1, t)
          | _ => (1, r)
        let ed := esgn.2.takeWhile isDigitCh
        if ed.isEmpty then 0 else esgn.1 * (digitsToNat ed : Int)
      | 'E' :: r =>
        let esgn : Int × List Char :=
          match r with
          | '-' :: t => (-1, t)
          | '+' :: t => (1, t)
          | _ => (1, r)
        let ed := esgn.2.takeWhile isDigitCh
        if ed.isEmpty then 0 else esgn.1 * (digitsToNat ed : Int)
      | _ => 0
    some (sgn.1 * mant * (10 : ℚ) ^ ex)

/-- Splitting a character list on a separator character, with the semantics
of JavaScript `String.prototype.split` on a one-character separator. -/
def splitOnCharAux (sep : Char) : List Char → List Char → List (List Char)
  | [], acc => [acc.reverse]
  | c :: cs, acc =>
    if c == sep then acc.reverse :: splitOnCharAux sep cs []
    else splitOnCharAux sep cs (c :: acc)

/-- JavaScript `s.split(sep)` for a one-character separator. -/
def jsSplitOnChar (sep : Char) (s : String) : List String :=
  (splitOnCharAux sep s.data []).map String.mk

/-- JavaScript `new Date(string).getTime()` restricted to the date-only ISO
form `YYYY-MM-DD` that the play-by-play feed's `game_date` column uses; any
string not of that shape is an Invalid Date (`none`).  The returned number is
an order-faithful day encoding scaled to milliseconds (not the true Unix
epoch), which is sufficient because the source only ever compares these
values with `>=`. -/
def jsDateParse (s : String) : Option Int :=
  match jsSplitOnChar '-' s with
  | [y, m, d] =>
    if y.data.length = 4 && y.data.all isDigitCh && m.data.length = 2 &&
       m.data.all isDigitCh && d.data.length = 2 && d.data.all isDigitCh then
      let mo := digitsToNat m.data
      let da := digitsToNat d.data
      if 1 ≤ mo && mo ≤ 12 && 1 ≤ da && da ≤ 31 then
        some ((((digitsToNat y.data) * 12 + mo) * 31 + da : Int) * 86400000)
      else none
    else none
  | _ => none

/-- `safeNumeric` from `src/index.js` lines 27-31: null/undefined, the empty
string and the sentinel `"NA"` map to null; otherwise `parseFloat`, with
`NaN` mapped to null. -/
def safeNumeric (value : Option String) : Option ℚ :=
  match value with
  | none => none
  | some s => if s = "" || s = "NA" then none else jsParseFloat s

/-- `safeInteger` from `src/index.js` lines 33-37: same null rules, then
`parseInt`, with `NaN` mapped to null. -/
def safeInteger (value : Option String) : Option Int :=
  match value with
  | none => none
  | some s => if s = "" || s = "NA" then none else jsParseInt s

/-- `safeText` from `src/index.js` lines 39-42: same null rules, then
`String(value).trim()`. -/
def safeText (value : Option String) : Option String :=
  match value with
  | none => none
  | some s => if s = "" || s = "NA" then none else some (jsTrim s)

/-- `safeBoolean` from `src/index.js` lines 44-47: same null rules, then
`value === '1' || value === 'true' || value === true`.  The `value === true`
disjunct is unreachable here because every value flowing in from the CSV
parser is a string or null, which is how this embedding types the input. -/
def safeBoolean (value : Option String) : Option Bool :=
  match value with
  | none => none
  | some s => if s = "" || s = "NA" then none else some (s == "1" || s == "true")

/-- `safeDouble` from `src/index.js` lines 49-53: identical body to
`safeNumeric`. -/
def safeDouble (value : Option String) : Option ℚ :=
  match value with
  | none => none
  | some s => if s = "" || s = "NA" then none else jsParseFloat s

/-- `TimeWindow` of the odds updater (`src/unnamed/part_001`), in epoch
milliseconds.  The source names the upper bound `end`, which is a reserved
word in Lean, so the field is called `stop` here. -/
structure TimeWindow where
  start : Int
  stop : Int
deriving DecidableEq, Repr

/-- Milliseconds per day. -/
def msPerDay : Int := 86400000

/-- `getUpcomingGamesWindow` from `src/unnamed/part_001` lines 50-57:
`start` is today at 00:00 UTC (the millisecond timestamp floored to a UTC
day boundary, which is what `Date.UTC(getUTCFullYear, getUTCMonth,
getUTCDate)` computes) and `end` is four days later
(`setUTCDate(getUTCDate() + 4)` in UTC, hence exactly `4 * msPerDay`). -/
def getUpcomingGamesWindow (now : Int) : TimeWindow :=
  let start := now - now % msPerDay
  { start := start, stop := start + 4 * msPerDay }

/-- The comparison the odds event filter performs on a parsed
`commence_time`: `t >= start && t < end` (`src/unnamed/part_001` line 148). -/
def inWindow (w : TimeWindow) (t : Int) : Bool :=
  decide (w.start ≤ t) && decide (t < w.stop)

/-- Admission test of the odds event filter (`src/unnamed/part_001` lines
146-149): `new Date(e.commence_time)` then the window comparison.  An absent
`commence_time` or one the date parser rejects yields an Invalid Date, whose
comparisons are false, so the event is excluded. -/
def eventAdmit (parse : String → Option Int) (w : TimeWindow)
    (commence : Option String) : Bool :=
  match commence with
  | none => false
  | some s =>
    match parse s with
    | some t => inWindow w t
    | none => false

/-- Recency window filter of `src/index.js` lines 148-162: when `game_date`
is truthy it is parsed with `new Date` and the record is admitted iff
`gameDateObj >= cutoffDate` (false for an Invalid Date); when `game_date` is
absent the record is admitted (`// Include plays without game_date`). -/
def pbpAdmit (parse : String → Option Int) (cutoff : Int)
    (gameDate : Option String) : Bool :=
  match gameDate with
  | some s =>
    match parse s with
    | some t => decide (cutoff ≤ t)
    | none => false
  | none => true

/-- Recency window filter of the second play-by-play revision
(`src/unnamed/part_000` lines 137-145): same comparison, but there is no
`else` branch, so a record with an absent `game_date` is dropped. -/
def pbpAdmitStrict (parse : String → Option Int) (cutoff : Int)
    (gameDate : Option String) : Bool :=
  match gameDate with
  | some s =>
    match parse s with
    | some t => decide (cutoff ≤ t)
    | none => false
  | none => false

/-- Character loop of the quote-aware tokenizer (`src/index.js` lines
124-140): a double quote toggles `inQuotes` and is not emitted; a comma
outside quotes ends the current token (pushed trimmed); any other character
is appended to the current token.  `current` is accumulated in reverse. -/
def splitLineAux : List Char → List Char → Bool → List String
  | [], current, _ => [jsTrim (String.mk current.reverse)]
  | c :: cs, current, inQuotes =>
    if c == '"' then splitLineAux cs current (!inQuotes)
    else if c == ',' && !inQuotes then
      jsTrim (String.mk current.reverse) :: splitLineAux cs [] inQuotes
    else splitLineAux cs (c :: current) inQuotes

/-- Quote-aware splitting of one data line (`src/index.js` lines 124-140,
identically `src/unnamed/part_000` lines 113-129), including the final
`values.push(current.trim())`. -/
def splitLine (line : String) : List String :=
  splitLineAux line.data [] false

/-- `replace(/"/g, '')` on a header name. -/
def stripQuotes (s : String) : String :=
  String.mk (s.data.filter (fun c => c != '"'))

/-- Header row parsing (`src/index.js` line 115): plain split on commas,
then `trim` and quote stripping per header. -/
def parseHeaders (headerLine : String) : List String :=
  (headerLine.splitOn ",").map (fun h => stripQuotes (jsTrim h))

/-- A `RawRecord`: the row object built by the parser, as an ordered list of
`(column name, value)` bindings.  The value is `none` when the source stored
`null` (`values[index] || null` turns an empty token into `null`). -/
def Row : Type := List (String × Option String)

instance : DecidableEq Row := by
  unfold Row
  infer_instance

/-- Property lookup `row[key]` on a row object: the last binding for a key
wins (later `row[header] = ...` assignments overwrite earlier ones), and a
missing key reads as `undefined`, which this embedding merges with `null`
into `none`. -/
def rowGet (r : Row) (k : String) : Option String :=
  match r.reverse.find? (fun p => p.1 == k) with
  | some p => p.2
  | none => none

/-- Row construction from the header list and the token list of one line
(`src/index.js` lines 143-146): `row[header] = values[index] || null`. -/
def mkRow (headers : List String) (values : List String) : Row :=
  headers.zip (values.map (fun v => if v = "" then none else some v))

/-- JavaScript truthiness of a raw row value: `null`/`undefined` and the
empty string are falsy, every other string is truthy. -/
def truthy : Option String → Bool
  | none => false
  | some s => s != ""

/-- Processing of one data line by the parser loop of `src/index.js` lines
121-163: tokenize the line; if the token count equals the header count,
build the row and keep it iff the recency filter admits its `game_date`;
otherwise produce nothing (the malformed line is silently dropped). -/
def rowOfLine (headers : List String) (parse : String → Option Int)
    (cutoff : Int) (line : String) : Option Row :=
  let values := splitLine line
  if values.length = headers.length then
    let row := mkRow headers values
    if pbpAdmit parse cutoff (rowGet row "game_date") then some row else none
  else none

/-- The parser's output sequence `pbpData` for a list of data lines. -/
def parseRows (headers : List String) (parse : String → Option Int)
    (cutoff : Int) (lines : List String) : List Row :=
  lines.filterMap (rowOfLine headers parse cutoff)

/-- A `TypedRecord` of the play-by-play pipeline, restricted to the two
identity columns.  The remaining 370 columns built at `src/index.js` lines
242-645 are pointwise `safe*` coercions of non-identity row fields and play
no role in any claim, so they are elided from the embedding. -/
structure TypedPlay where
  play_id : Option ℚ
  game_id : Option String
deriving DecidableEq, Repr

/-- The record assembler's output for one admitted row (`src/index.js`
lines 242-246): `play_id: safeNumeric(play.play_id)`,
`game_id: safeText(play.game_id)`. -/
def mkTyped (r : Row) : TypedPlay :=
  { play_id := safeNumeric (rowGet r "play_id")
    game_id := safeText (rowGet r "game_id") }

/-- One entry of the `skippedPlays` list (`src/index.js` lines 233-237). -/
structure SkippedPlay where
  gameId : String
  playId : String
  reasons : List String
deriving DecidableEq, Repr

/-- `play.game_id || 'Unknown'`. -/
def orUnknown (v : Option String) : String :=
  match v with
  | some s => if s = "" then "Unknown" else s
  | none => "Unknown"

/-- The `skipReasons` list of the identity gate (`src/index.js` lines
228-230): `if (!play.game_id)` push `'Missing game_id'`;
`if (!play.play_id)` push `'Missing play_id'`. -/
def skipReasons (r : Row) : List String :=
  (if truthy (rowGet r "game_id") then [] else ["Missing game_id"]) ++
  (if truthy (rowGet r "play_id") then [] else ["Missing play_id"])

/-- The skipped-play record pushed when the gate rejects a row. -/
def mkSkipped (r : Row) : SkippedPlay :=
  { gameId := orUnknown (rowGet r "game_id")
    playId := orUnknown (rowGet r "play_id")
    reasons := skipReasons r }

/-- The transformation loop of `src/index.js` lines 226-646: each row either
passes the identity gate (empty `skipReasons`) and contributes a
`TypedPlay` to `transformedPlays`, or is pushed onto `skippedPlays`;
both output lists preserve feed order. -/
def transformAll : List Row → List TypedPlay × List SkippedPlay
  | [] => ([], [])
  | r :: rs =>
    let rest := transformAll rs
    if (skipReasons r).isEmpty then (mkTyped r :: rest.1, rest.2)
    else (rest.1, mkSkipped r :: rest.2)

/-- The `updateResults` summary object of `src/index.js` lines 661-666. -/
structure UpdateResults where
  attempted : Nat
  successful : Nat
  failed : Nat
  errors : List String
deriving DecidableEq, Repr

/-- Contiguous order-preserving slicing into batches of size `k`
(`transformedPlays.slice(i, i + batchSize)` for `i = 0, k, 2k, ...`,
`src/index.js` lines 679-680).  The driver always runs with `k = 100`;
for `k = 0` this definition produces singleton batches so that it stays
total, and the theorems about it assume `0 < k`. -/
def sliceBatches (k : Nat) : List α → List (List α)
  | [] => []
  | x :: xs => (x :: xs.take (k - 1)) :: sliceBatches k (xs.drop (k - 1))
termination_by l => l.length
decreasing_by simp [List.length_drop]; omega

/-- The per-batch loop body of `src/index.js` lines 679-702, instrumented.
`σ n b` is the persistence collaborator's answer to the upsert call for
batch number `n` with payload `b` (`none` = success, `some msg` = the
reported error).  Returns `(totalProcessed, errors, calls)` where `calls`
records every collaborator invocation in order. -/
def processBatches (σ : Nat → List α → Option String) :
    Nat → List (List α) → Nat × List String × List (Nat × List α)
  | _, [] => (0, [], [])
  | n, b :: bs =>
    let rest := processBatches σ (n + 1) bs
    match σ n b with
    | none => (b.length + rest.1, rest.2.1, (n, b) :: rest.2.2)
    | some msg =>
      (rest.1, ("Batch " ++ toString n ++ ": " ++ msg) :: rest.2.1, (n, b) :: rest.2.2)

/-- The batch upsert driver of `src/index.js` lines 668-712: in test mode
every record is counted successful and no collaborator call is made;
otherwise the batches are processed in order (batch numbers start at 1),
`successful := totalProcessed`, `failed := attempted - totalProcessed`, and
`errors` collects the per-batch failure messages. -/
def runBatchDriver (testMode : Bool) (σ : Nat → List α → Option String)
    (k : Nat) (plays : List α) : UpdateResults × List (Nat × List α) :=
  if testMode then
    ({ attempted := plays.length, successful := plays.length, failed := 0, errors := [] }, [])
  else
    let r := processBatches σ 1 (sliceBatches k plays)
    ({ attempted := plays.length, successful := r.1,
       failed := plays.length - r.1, errors := r.2.1 }, r.2.2)

/-- The run summary's `success` flag (`src/index.js` line 716):
`updateResults.successful > 0 || testMode`. -/
def summarySuccess (testMode : Bool) (r : UpdateResults) : Bool :=
  decide (0 < r.successful) || testMode

/-- The per-market persistence step of the odds updater
(`src/unnamed/part_001` lines 224-247): when `records` is non-empty, live
mode issues one upsert call and counts the records on success only, while
dry-run mode counts the records without any call; an empty `records` list
does neither.  Result: `(lines counted into eventLines, upsert calls issued)`;
`upsertError` is the collaborator's answer to the call if one is made. -/
def oddsMarketStep (testMode : Bool) (upsertError : Option String)
    (records : List γ) : Nat × Nat :=
  if records.length ≠ 0 then
    if !testMode then
      match upsertError with
      | none => (records.length, 1)
      | some _ => (0, 1)
    else (records.length, 0)
  else (0, 0)

/-- `sanitize` from `src/unnamed/part_001` lines 88-90, on character lists:
first `replace(/\s+/g, '_')` — every maximal run of `\s` characters becomes
one underscore — tracked by a flag telling whether the previous character
was part of a whitespace run. -/
def collapseWsList : Bool → List Char → List Char
  | _, [] => []
  | prevWs, c :: cs =>
    if jsWhitespace c then
      if prevWs then collapseWsList true cs
      else '_' :: collapseWsList true cs
    else c :: collapseWsList false cs

/-- The character class kept by the second replace of `sanitize`:
`[a-zA-Z0-9_\-]`. -/
def allowedChar (c : Char) : Bool :=
  let n := c.toNat
  (48 ≤ n && n ≤ 57) || (65 ≤ n && n ≤ 90) || (97 ≤ n && n ≤ 122) ||
  n == 95 || n == 45

/-- `sanitize` on character lists: collapse whitespace runs to `_`, then
`replace(/[^a-zA-Z0-9_\-]/g, '')`. -/
def sanitizeList (l : List Char) : List Char :=
  (collapseWsList false l).filter allowedChar

/-- `sanitize` from `src/unnamed/part_001` lines 88-90. -/
def sanitize (s : String) : String :=
  String.mk (sanitizeList s.data)

/-- The synthetic record id of `src/unnamed/part_001` line 198:
`${eventId}_${book.key}_${market_key}_${sanitize(out.description)}_${out.point}_${sanitize(out.name)}`
(the numeric `out.point` is taken here already rendered to text). -/
def recordId (eventId bookKey marketKey desc point name : String) : String :=
  eventId ++ "_" ++ bookKey ++ "_" ++ marketKey ++ "_" ++ sanitize desc ++
    "_" ++ point ++ "_" ++ sanitize name

/-- The early-exit result of the seasonal guard (`success: true`,
`skipped: true`). -/
structure SkipResult where
  success : Bool
  skipped : Bool
deriving DecidableEq, Repr

/-- The seasonal window guard shared by all three scripts
(`src/index.js` lines 187-194, `src/unnamed/part_000` lines 164-167,
`src/unnamed/part_001` lines 125-131): `if (!inSeason && !testMode)` return
the skip result, else fall through (`none`) and run the pipeline. -/
def seasonGuard (inSeason testMode : Bool) : Option SkipResult :=
  if !inSeason && !testMode then some { success := true, skipped := true }
  else none

/-- Enumeration of a list with indices starting at `n`; used to state which
batch number each batch receives in the driver loop. -/
def enumFrom (n : Nat) : List β → List (Nat × β)
  | [] => []
  | b :: bs => (n, b) :: enumFrom (n + 1) bs

/-- Fixture: a collaborator that fails exactly batch number 2, used to
instantiate the batch-isolation theorem at a concrete input. -/
def failSecondBatch : Nat → List Nat → Option String :=
  fun n _ => if n = 2 then some "boom" else none

/-- Fixture: header list of the concrete parser runs. -/
def hdrsW : List String := ["play_id", "game_id"]

/-- Fixture: data lines of the concrete parser runs; the second line has
three tokens against two headers and is malformed. -/
def linesW : List String := ["7,G1", "1,2,3"]

/-- The instrumented batch loop, characterized: processed count, error list
and call trace, in terms of the enumerated batch list. -/
theorem processBatches_spec {α : Type} (σ : Nat → List α → Option String)
    (bs : List (List α)) : ∀ n,
    processBatches σ n bs =
      ((((enumFrom n bs).filter (fun p => (σ p.1 p.2).isNone)).map
          (fun p => p.2.length)).sum,
       (enumFrom n bs).filterMap
         (fun p => (σ p.1 p.2).map (fun m => "Batch " ++ toString p.1 ++ ": " ++ m)),
       enumFrom n bs) := by
  induction bs with
  | nil => intro n; simp [processBatches, enumFrom]
  | cons b rest ih =>
    intro n
    simp only [processBatches, enumFrom, ih]
    cases h : σ n b <;> simp [h]

/-- Concatenating the contiguous batches recovers the input sequence. -/
theorem sliceBatches_flatten {α : Type} (k : Nat) :
    ∀ l : List α, (sliceBatches k l).flatten = l
  | [] => by simp [sliceBatches]
  | x :: xs => by
    rw [sliceBatches]
    simp only [List.flatten_cons]
    rw [sliceBatches_flatten k (xs.drop (k - 1))]
    simp
termination_by l => l.length
decreasing_by simp [List.length_drop]; omega

/-- Enumerating a list does not change its elements. -/
theorem enumFrom_map_snd {β : Type} (l : List β) :
    ∀ n, (enumFrom n l).map Prod.snd = l := by
  induction l with
  | nil => intro n; rfl
  | cons b bs ih => intro n; simp [enumFrom, ih]

/-- Splitting a sum of mapped values along a boolean filter. -/
theorem sum_map_filter_add {β : Type} (f : β → Nat) (p : β → Bool) (l : List β) :
    (((l.filter p).map f).sum + ((l.filter (fun x => !p x)).map f).sum) =
      (l.map f).sum := by
  induction l with
  | nil => rfl
  | cons x xs ih => cases h : p x <;> simp [List.filter_cons, h] <;> omega

/-- A row enters the parser output only from a line whose token count
matches the header count. -/
theorem rowOfLine_some {headers : List String} {parse : String → Option Int}
    {cutoff : Int} {line : String} {r : Row}
    (h : rowOfLine headers parse cutoff line = some r) :
    (splitLine line).length = headers.length ∧ r = mkRow headers (splitLine line) := by
  by_cases hl : (splitLine line).length = headers.length
  · refine ⟨hl, ?_⟩
    by_cases ha :
        pbpAdmit parse cutoff (rowGet (mkRow headers (splitLine line)) "game_date") = true
    · simp [rowOfLine, hl, ha] at h
      exact h.symm
    · simp [rowOfLine, hl, ha] at h
  · simp [rowOfLine, hl] at h

/-- Unfolding of the transformation loop on a gate-passing row. -/
theorem transformAll_cons_pass (r : Row) (rs : List Row)
    (hg : (skipReasons r).isEmpty = true) :
    transformAll (r :: rs) = (mkTyped r :: (transformAll rs).1, (transformAll rs).2) := by
  simp [transformAll, hg]

/-- Unfolding of the transformation loop on a rejected row. -/
theorem transformAll_cons_skip (r : Row) (rs : List Row)
    (hg : (skipReasons r).isEmpty = false) :
    transformAll (r :: rs) = ((transformAll rs).1, mkSkipped r :: (transformAll rs).2) := by
  simp [transformAll, hg]

/-- Every transformed play originates from a gate-passing input row. -/
theorem transformAll_fst_mem {rows : List Row} {t : TypedPlay}
    (h : t ∈ (transformAll rows).1) :
    ∃ r ∈ rows, (skipReasons r).isEmpty = true ∧ t = mkTyped r := by
  induction rows with
  | nil => simp [transformAll] at h
  | cons r rs ih =>
    cases hg : (skipReasons r).isEmpty with
    | true =>
      rw [transformAll_cons_pass r rs hg] at h
      rcases List.mem_cons.mp h with h | h
      · exact ⟨r, List.mem_cons_self r rs, hg, h⟩
      · obtain ⟨r2, hr2, hg2, ht2⟩ := ih h
        exact ⟨r2, List.mem_cons_of_mem r hr2, hg2, ht2⟩
    | false =>
      rw [transformAll_cons_skip r rs hg] at h
      obtain ⟨r2, hr2, hg2, ht2⟩ := ih h
      exact ⟨r2, List.mem_cons_of_mem r hr2, hg2, ht2⟩

/-- Characters kept by `sanitize` are never JavaScript whitespace. -/
theorem allowedChar_not_ws (c : Char) (h : allowedChar c = true) :
    jsWhitespace c = false := by
  simp [allowedChar] at h
  simp [jsWhitespace]
  omega

/-- Collapsing whitespace runs is the identity on whitespace-free text. -/
theorem collapseWs_no_ws (l : List Char)
    (h : l.all (fun c => !jsWhitespace c) = true) :
    ∀ b, collapseWsList b l = l := by
  induction l with
  | nil => intro b; rfl
  | cons c cs ih =>
    simp only [List.all_cons, Bool.and_eq_true, Bool.not_eq_true'] at h
    intro b
    simp [collapseWsList, h.1, ih (by simpa using h.2)]

/-- Every character of a sanitized list is in the kept class. -/
theorem sanitizeList_all (l : List Char) :
    (sanitizeList l).all allowedChar = true := by
  rw [List.all_eq_true]
  intro c hc
  exact (List.mem_filter.mp hc).2

/-- Sanitizing is idempotent at the character-list level. -/
theorem sanitizeList_idem (l : List Char) :
    sanitizeList (sanitizeList l) = sanitizeList l := by
  have h1 : (sanitizeList l).all (fun c => !jsWhitespace c) = true := by
    rw [List.all_eq_true]
    intro c hc
    simp [allowedChar_not_ws c ((List.mem_filter.mp hc).2)]
  conv_lhs => rw [sanitizeList, collapseWs_no_ws _ h1 false]
  apply List.filter_eq_self.mpr
  intro c hc
  exact (List.mem_filter.mp hc).2

/-- The identity gate is exactly raw truthiness of the two identity
fields. -/
theorem skipReasons_isEmpty_eq (r : Row) :
    (skipReasons r).isEmpty =
      (truthy (rowGet r "game_id") && truthy (rowGet r "play_id")) := by
  cases h1 : truthy (rowGet r "game_id") <;>
    cases h2 : truthy (rowGet r "play_id") <;>
      simp [skipReasons, h1, h2]

/-- Claim C4: each coercion function (`safeInteger`, `safeNumeric`,
`safeDouble`, `safeText`, `safeBoolean`) is a total Lean function that
returns null for every input in the set consisting of the empty string, the
sentinel `"NA"` and an absent value, and returns null rather than failing on
any input whose numeric parse fails. -/
theorem coercion_sentinel_uniformity :
    (safeInteger none = none ∧ safeInteger (some "") = none ∧
      safeInteger (some "NA") = none) ∧
    (safeNumeric none = none ∧ safeNumeric (some "") = none ∧
      safeNumeric (some "NA") = none) ∧
    (safeDouble none = none ∧ safeDouble (some "") = none ∧
      safeDouble (some "NA") = none) ∧
    (safeText none = none ∧ safeText (some "") = none ∧
      safeText (some "NA") = none) ∧
    (safeBoolean none = none ∧ safeBoolean (some "") = none ∧
      safeBoolean (some "NA") = none) ∧
    (∀ s, jsParseInt s = none → safeInteger (some s) = none) ∧
    (∀ s, jsParseFloat s = none → safeNumeric (some s) = none) ∧
    (∀ s, jsParseFloat s = none → safeDouble (some s) = none) := by
  refine ⟨by decide, by decide, by decide, by decide, by decide, ?_, ?_, ?_⟩ <;>
    · intro s h
      by_cases hs : s = "" ∨ s = "NA" <;>
        simp [safeInteger, safeNumeric, safeDouble, hs, h]

/-- Witness for claim C4: the unconvertible input `"abc"` is mapped to null
by the integer and float coercions. -/
theorem coercion_sentinel_uniformity_witness :
    jsParseInt "abc" = none ∧ safeInteger (some "abc") = none ∧
    jsParseFloat "abc" = none ∧ safeNumeric (some "abc") = none :=
  ⟨by decide,
   coercion_sentinel_uniformity.2.2.2.2.2.1 "abc" (by decide),
   by decide,
   coercion_sentinel_uniformity.2.2.2.2.2.2.1 "abc" (by decide)⟩

/-- Claim C5: the quote-aware tokenizer does not split on a comma inside a
double-quoted field; the line `a,"b,c",d` yields exactly the three tokens
`a`, `b,c` and `d`. -/
theorem quote_aware_split : splitLine "a,\"b,c\",d" = ["a", "b,c", "d"] := by
  decide

/-- Claim C10: the seasonal guard's early exit (a skip result with
`success: true`) is taken exactly when the run is outside the season window
and dry-run mode is off; with dry-run mode on, the guard always falls
through. -/
theorem season_guard_bypass :
    (∀ inSeason, seasonGuard inSeason true = none) ∧
    (∀ s t, seasonGuard s t = some { success := true, skipped := true } ↔
      s = false ∧ t = false) := by
  constructor
  · intro s; cases s <;> rfl
  · intro s t; cases s <;> cases t <;> simp [seasonGuard]

/-- Claim C7: in dry-run mode the batch driver issues zero collaborator
calls and the summary reports every record successful (and overall success);
the odds updater's per-market step likewise counts its records without
issuing any upsert call in dry-run mode. -/
theorem dry_run_no_op {α γ : Type} (σ : Nat → List α → Option String) (k : Nat)
    (plays : List α) :
    runBatchDriver true σ k plays =
      ({ attempted := plays.length, successful := plays.length,
         failed := 0, errors := [] }, []) ∧
    summarySuccess true
      { attempted := plays.length, successful := plays.length,
        failed := 0, errors := [] } = true ∧
    (∀ (u : Option String) (records : List γ),
      oddsMarketStep true u records = (records.length, 0)) := by
  refine ⟨rfl, by simp [summarySuccess], ?_⟩
  intro u records
  by_cases h : records.length = 0 <;> simp [oddsMarketStep, h]

/-- Claim C9: `sanitize` produces only characters from `[A-Za-z0-9_-]`, is
idempotent, and therefore the player-name and outcome-name components of
every synthetic record id are drawn from that alphabet. -/
theorem sanitize_alphabet_idempotent :
    (∀ s : String, ((sanitize s).data.all allowedChar) = true) ∧
    (∀ s : String, sanitize (sanitize s) = sanitize s) ∧
    (∀ eventId bookKey marketKey desc point name : String,
      ((sanitize desc).data.all allowedChar) = true ∧
      ((sanitize name).data.all allowedChar) = true ∧
      recordId eventId bookKey marketKey desc point name =
        eventId ++ "_" ++ bookKey ++ "_" ++ marketKey ++ "_" ++ sanitize desc ++
          "_" ++ point ++ "_" ++ sanitize name) := by
  have hall : ∀ s : String, ((sanitize s).data.all allowedChar) = true := by
    intro s
    simpa [sanitize] using sanitizeList_all s.data
  refine ⟨hall, ?_, ?_⟩
  · intro s
    simp [sanitize, sanitizeList_idem]
  · intro eventId bookKey marketKey desc point name
    exact ⟨hall desc, hall name, rfl⟩

/-- Claim C6: the odds feed's time window is half-open: a commence time
equal to `start` is admitted, one unit before `start` is excluded, and one
equal to `end` is excluded, for the window derived from any current time. -/
theorem odds_window_half_open (now : Int) (parse : String → Option Int)
    (s : String) :
    inWindow (getUpcomingGamesWindow now) (getUpcomingGamesWindow now).start = true ∧
    inWindow (getUpcomingGamesWindow now) ((getUpcomingGamesWindow now).start - 1) = false ∧
    inWindow (getUpcomingGamesWindow now) (getUpcomingGamesWindow now).stop = false ∧
    (parse s = some (getUpcomingGamesWindow now).start →
      eventAdmit parse (getUpcomingGamesWindow now) (some s) = true) ∧
    (parse s = some ((getUpcomingGamesWindow now).start - 1) →
      eventAdmit parse (getUpcomingGamesWindow now) (some s) = false) ∧
    (parse s = some (getUpcomingGamesWindow now).stop →
      eventAdmit parse (getUpcomingGamesWindow now) (some s) = false) := by
  have h1 : inWindow (getUpcomingGamesWindow now) (getUpcomingGamesWindow now).start = true := by
    simp [inWindow, getUpcomingGamesWindow, msPerDay]
  have h2 : inWindow (getUpcomingGamesWindow now)
      ((getUpcomingGamesWindow now).start - 1) = false := by
    simp [inWindow, getUpcomingGamesWindow, msPerDay]
  have h3 : inWindow (getUpcomingGamesWindow now) (getUpcomingGamesWindow now).stop = false := by
    simp [inWindow, getUpcomingGamesWindow, msPerDay]
  refine ⟨h1, h2, h3, ?_, ?_, ?_⟩ <;> intro hp <;> simp [eventAdmit, hp, h1, h2, h3]

/-- Witness for claim C6: with the window derived from time 0 and a parse
sending one concrete commence string to the window's start, that event is
admitted. -/
theorem odds_window_half_open_witness :
    ((fun _ : String => some (0 : Int)) "x" = some (getUpcomingGamesWindow 0).start) ∧
    eventAdmit (fun _ => some (0 : Int)) (getUpcomingGamesWindow 0) (some "x") = true :=
  ⟨by decide,
   (odds_window_half_open 0 (fun _ => some (0 : Int)) "x").2.2.2.1 (by decide)⟩

/-- Counterexample to claim C1: in `src/index.js`, a record whose
`game_date` is present but unparseable as a date is not admitted by the
recency filter (an Invalid Date fails the `>=` comparison), and in the
`src/unnamed/part_000` revision even a record with an absent `game_date` is
excluded, so the claim that every absent-or-unparseable timestamp is
admitted fail-open is false. -/
theorem window_fallback_policy_cex :
    pbpAdmit jsDateParse 0 (some "not-a-date") = false ∧
    pbpAdmitStrict jsDateParse 0 none = false := by
  decide

/-- Claim C1 (amended): for the recency-filtered feed of `src/index.js`, a
record with an absent `game_date` is admitted (fail-open) while a record
whose `game_date` is present but unparseable is excluded; the
`src/unnamed/part_000` revision excludes absent and unparseable timestamps
alike; and the scheduled-event odds feed excludes records whose
`commence_time` is absent or unparseable (fail-closed). -/
theorem window_fallback_policy_amended (parse : String → Option Int)
    (cutoff : Int) (w : TimeWindow) (s : String) :
    pbpAdmit parse cutoff none = true ∧
    pbpAdmitStrict parse cutoff none = false ∧
    (parse s = none → pbpAdmit parse cutoff (some s) = false) ∧
    (parse s = none → pbpAdmitStrict parse cutoff (some s) = false) ∧
    eventAdmit parse w none = false ∧
    (parse s = none → eventAdmit parse w (some s) = false) := by
  refine ⟨rfl, rfl, ?_, ?_, rfl, ?_⟩ <;>
    · intro h
      simp [pbpAdmit, pbpAdmitStrict, eventAdmit, h]

/-- Witness for claim C1 (amended): the concrete unparseable timestamp
string is excluded by the recency filter and by the odds event filter. -/
theorem window_fallback_policy_amended_witness :
    jsDateParse "not-a-date" = none ∧
    pbpAdmit jsDateParse 0 (some "not-a-date") = false ∧
    eventAdmit jsDateParse { start := 0, stop := 345600000 } (some "not-a-date") = false :=
  ⟨by decide,
   (window_fallback_policy_amended jsDateParse 0
     { start := 0, stop := 345600000 } "not-a-date").2.2.1 (by decide),
   (window_fallback_policy_amended jsDateParse 0
     { start := 0, stop := 345600000 } "not-a-date").2.2.2.2.2 (by decide)⟩

/-- Counterexample to claim C2: a raw record whose `play_id` field is the
sentinel `"NA"` passes the identity gate (the gate tests raw truthiness, and
`"NA"` is truthy), is not counted as skipped, and produces a `TypedRecord`
whose `play_id` identity column is null after coercion. -/
theorem identity_gate_cex :
    transformAll [mkRow ["play_id", "game_id"] ["NA", "2025_01_KC_LAC"]] =
      ([{ play_id := none, game_id := some "2025_01_KC_LAC" }], []) := by
  decide

/-- Claim C2 (amended): the identity gate tests raw truthiness of
`game_id` and `play_id` before coercion: exactly the rows with an absent or
empty identity field are rejected into the separate `skippedPlays` list
(counted apart from parse-malformed lines, which never reach this stage)
and excluded from the output sequence, in order; a row whose raw identity
field is truthy but coerces to null (such as `"NA"`) still produces a
`TypedRecord`. -/
theorem identity_gate_amended (rows : List Row) :
    (transformAll rows).1 =
      (rows.filter (fun r => (skipReasons r).isEmpty)).map mkTyped ∧
    (transformAll rows).2 =
      (rows.filter (fun r => !(skipReasons r).isEmpty)).map mkSkipped ∧
    (transformAll rows).1.length + (transformAll rows).2.length = rows.length ∧
    (∀ r : Row, (skipReasons r).isEmpty =
      (truthy (rowGet r "game_id") && truthy (rowGet r "play_id"))) := by
  refine ⟨?_, ?_, ?_, fun r => skipReasons_isEmpty_eq r⟩ <;>
  · induction rows with
    | nil => simp [transformAll]
    | cons r rs ih =>
      cases hg : (skipReasons r).isEmpty with
      | true =>
        rw [transformAll_cons_pass r rs hg]
        simp [List.filter_cons, hg, ih]
        try omega
      | false =>
        rw [transformAll_cons_skip r rs hg]
        simp [List.filter_cons, hg, ih]
        try omega

/-- Enumerating batches does not change the per-batch record counts. -/
theorem enumFrom_map_snd_len {α : Type} (l : List (List α)) :
    ∀ n, (enumFrom n l).map (fun p => p.2.length) = l.map List.length := by
  induction l with
  | nil => intro n; rfl
  | cons b bs ih => intro n; simp [enumFrom, ih]

/-- Claim C3: for any collaborator behaviour, the live batch driver attempts
every batch exactly once in order (batch `k` failing never prevents the
others), `attempted` is the record count, `successful` and `failed` count
exactly the records of the succeeding and failing batches, and `errors`
lists exactly the failing batches' messages. -/
theorem batch_partial_failure_isolation {α : Type} (σ : Nat → List α → Option String)
    (k : Nat) (plays : List α) (_hk : 0 < k) :
    (runBatchDriver false σ k plays).2 = enumFrom 1 (sliceBatches k plays) ∧
    ((runBatchDriver false σ k plays).2).map Prod.snd = sliceBatches k plays ∧
    (runBatchDriver false σ k plays).1.attempted = plays.length ∧
    (runBatchDriver false σ k plays).1.successful =
      (((enumFrom 1 (sliceBatches k plays)).filter
          (fun p => (σ p.1 p.2).isNone)).map (fun p => p.2.length)).sum ∧
    (runBatchDriver false σ k plays).1.failed =
      (((enumFrom 1 (sliceBatches k plays)).filter
          (fun p => (σ p.1 p.2).isSome)).map (fun p => p.2.length)).sum ∧
    (runBatchDriver false σ k plays).1.errors =
      (enumFrom 1 (sliceBatches k plays)).filterMap
        (fun p => (σ p.1 p.2).map (fun m => "Batch " ++ toString p.1 ++ ": " ++ m)) := by
  have hspec := processBatches_spec σ (sliceBatches k plays) 1
  have htot : ((enumFrom 1 (sliceBatches k plays)).map (fun p => p.2.length)).sum
      = plays.length := by
    rw [enumFrom_map_snd_len (sliceBatches k plays) 1, ← List.length_flatten,
      sliceBatches_flatten]
  have hfil : (enumFrom 1 (sliceBatches k plays)).filter
        (fun p => !(σ p.1 p.2).isNone)
      = (enumFrom 1 (sliceBatches k plays)).filter
        (fun p => (σ p.1 p.2).isSome) := by
    apply List.filter_congr
    intro x _
    cases σ x.1 x.2 <;> rfl
  have hsum := sum_map_filter_add (fun p => p.2.length)
    (fun p => (σ p.1 p.2).isNone) (enumFrom 1 (sliceBatches k plays))
  rw [hfil, htot] at hsum
  refine ⟨?_, ?_, ?_, ?_, ?_, ?_⟩
  · simp [runBatchDriver, hspec]
  · simp [runBatchDriver, hspec, enumFrom_map_snd]
  · simp [runBatchDriver]
  · simp [runBatchDriver, hspec]
  · simp [runBatchDriver, hspec]
    omega
  · simp [runBatchDriver, hspec]

/-- Witness for claim C3: the batch-isolation theorem instantiated with a
batch size of 2, five records and a collaborator that fails exactly batch
number 2. -/
theorem batch_partial_failure_isolation_witness :
    0 < 2 ∧
    (runBatchDriver false failSecondBatch 2 [0, 1, 2, 3, 4]).1.errors =
      (enumFrom 1 (sliceBatches 2 [0, 1, 2, 3, 4])).filterMap
        (fun p => (failSecondBatch p.1 p.2).map
          (fun m => "Batch " ++ toString p.1 ++ ": " ++ m)) :=
  ⟨by decide,
   (batch_partial_failure_isolation failSecondBatch 2 [0, 1, 2, 3, 4]
     (by decide)).2.2.2.2.2⟩

/-- Claim C8: every row of the parser output, and hence every field of
every `TypedRecord`, comes from a data line whose token count equals the
header count; a line with a different token count contributes nothing (and
the parser is a total function, so no input crashes it). -/
theorem malformed_line_drop (headers : List String) (parse : String → Option Int)
    (cutoff : Int) (lines : List String) :
    (∀ r ∈ parseRows headers parse cutoff lines,
      ∃ line ∈ lines, (splitLine line).length = headers.length ∧
        r = mkRow headers (splitLine line)) ∧
    (∀ t ∈ (transformAll (parseRows headers parse cutoff lines)).1,
      ∃ line ∈ lines, (splitLine line).length = headers.length ∧
        t = mkTyped (mkRow headers (splitLine line))) := by
  constructor
  · intro r hr
    simp only [parseRows] at hr
    obtain ⟨line, hline, hsome⟩ := List.mem_filterMap.mp hr
    obtain ⟨hlen, hrow⟩ := rowOfLine_some hsome
    exact ⟨line, hline, hlen, hrow⟩
  · intro t ht
    obtain ⟨r, hr, _, htr⟩ := transformAll_fst_mem ht
    simp only [parseRows] at hr
    obtain ⟨line, hline, hsome⟩ := List.mem_filterMap.mp hr
    obtain ⟨hlen, hrow⟩ := rowOfLine_some hsome
    exact ⟨line, hline, hlen, htr.trans (by rw [hrow])⟩

/-- Witness for claim C8: the concrete two-line feed `linesW`, whose second
line is malformed; the surviving row traces back to the well-formed line. -/
theorem malformed_line_drop_witness :
    ∃ line ∈ linesW, (splitLine line).length = hdrsW.length ∧
      ([("play_id", some "7"), ("game_id", some "G1")] : Row) =
        mkRow hdrsW (splitLine line) :=
  (malformed_line_drop hdrsW jsDateParse 0 linesW).1
    [("play_id", some "7"), ("game_id", some "G1")] (by decide)
